import Mathlib

/-!
Verification of the django-postgres-copy bulk load/unload pipeline.

This file gives a shallow embedding, in Lean, of the parts of the
`postgres_copy` package that the specification talks about:

* `Managers` — the `CopyQuerySet.from_csv` orchestrator and the
  constraint/index suspension manager (`managers.py`);
* `CopyFrom` — the newer `CopyMapping` load pipeline (`copy_from.py`):
  the `insert_suffix` conflict clause builder, the per-column cast
  expressions of `prep_insert`, the file-handle handling of `copy`, and
  the statement order of `save`;
* `InitMapping` — the older `CopyMapping` (`__init__.py`): the
  header/field crosswalk and the per-column SELECT expression builder
  with field-value mappings;
* `Compat` — the psycopg3 chunked `copy_to` byte/text transfer of
  `psycopg_compat.py`, together with a byte-level UTF-8 decoder;
* `CopyTo` — the export compiler's datetime serial-number expression
  (`copy_to.py`).

Python dictionaries are modelled as association lists or as lookup
functions, machine text as `String`, byte streams as `List Nat`, and
raised exceptions as `Except`/`Option` results.
-/

namespace PGCopy

/-- Python template substitution `template % dict(name=header)` for the
templates used by this package, which mention the single key `name`. -/
def subst (tpl header : String) : String :=
  tpl.replace "%(name)s" header

namespace Managers

/-- The keys of the `on_conflict` dictionary that `from_csv` inspects
(`managers.py`): the `action` string and the `target` string.  `none`
models an absent key. -/
structure OCArg where
  action : Option String
  target : Option String
deriving DecidableEq, Repr

/-- Python truthiness of `on_conflict.get('target')` for a string value:
present and nonempty. -/
def truthyStr : Option String → Bool
  | none => false
  | some s => s ≠ ""

/-- Observable steps of one `from_csv` call, in execution order. -/
inductive Ev
  | dropC
  | dropI
  | save
  | restoreC
  | restoreI
deriving DecidableEq, Repr

/-- The constraint-suspension override of `from_csv` (`managers.py`
lines 173-181): if the `on_conflict` dict is truthy and its `target` is
truthy and names a declared constraint, or if its `target` is falsy and
its action is `ignore`, then `drop_constraints` is forced to `False`. -/
def conflictOverride (dropConstraints : Bool) (oc : Option OCArg)
    (constraintNames : List String) : Bool :=
  match oc with
  | none => dropConstraints
  | some o =>
    if truthyStr o.target then
      if o.target.getD "" ∈ constraintNames then false else dropConstraints
    else if o.action = some "ignore" then false
    else dropConstraints

/-- The `CopyQuerySet.from_csv` orchestrator (`managers.py` lines
155-196) reduced to its control decisions.  It first runs the
transaction guard (raising, with no work done, when constraint or index
suspension is requested inside an atomic block), then applies the
`on_conflict` override to `drop_constraints`, and finally returns the
ordered trace of suspension, save and restoration steps. -/
def from_csv (inAtomicBlock dropConstraints dropIndexes : Bool)
    (oc : Option OCArg) (constraintNames : List String) :
    Except Unit (List Ev) :=
  if (dropConstraints || dropIndexes) && inAtomicBlock then
    Except.error ()
  else
    let dc := conflictOverride dropConstraints oc constraintNames
    Except.ok
      ((if dc then [Ev.dropC] else []) ++
       (if dropIndexes then [Ev.dropI] else []) ++
       [Ev.save] ++
       (if dc then [Ev.restoreC] else []) ++
       (if dropIndexes then [Ev.restoreI] else []))

/-- A model field as seen by `ConstraintQuerySet` (`managers.py`): its
name, whether it has a `db_constraint` attribute and that attribute's
value, and its `db_index` flag. -/
structure FieldM where
  name : String
  hasDbConstraintAttr : Bool
  dbConstraint : Bool
  dbIndex : Bool
deriving DecidableEq, Repr

/-- The slice of `model._meta` consulted by the suspension manager. -/
structure MetaM where
  uniqueTogether : List (List String)
  indexTogether : List (List String)
  fields : List FieldM
  constraints : List String
  indexes : List String
deriving DecidableEq, Repr

/-- `ConstraintQuerySet.constrained_fields`: fields with a
`db_constraint` attribute set to a true value. -/
def constrainedFields (m : MetaM) : List FieldM :=
  m.fields.filter fun f => f.hasDbConstraintAttr && f.dbConstraint

/-- `ConstraintQuerySet.indexed_fields`: fields with `db_index` set. -/
def indexedFields (m : MetaM) : List FieldM :=
  m.fields.filter fun f => f.dbIndex

/-- One schema-editor invocation attempted by the suspension manager:
the method name and its arguments, as issued by `drop_constraints`,
`drop_indexes`, `restore_constraints` and `restore_indexes`. -/
inductive SchemaCall
  | alterUniqueTogether (old new : List (List String))
  | alterIndexTogether (old new : List (List String))
  | alterField (old new : FieldM)
  | removeConstraint (name : String)
  | addConstraint (name : String)
  | removeIndex (name : String)
  | addIndex (name : String)
deriving DecidableEq, Repr

/-- `ConstraintQuerySet.edit_schema` (`managers.py` lines 34-44): run one
schema-editor call and swallow any exception it raises, reporting only
whether the call was applied (`true`) or logged and skipped (`false`). -/
def edit_schema (runner : SchemaCall → Except String Unit)
    (c : SchemaCall) : Except String Bool :=
  match runner c with
  | Except.ok _ => Except.ok true
  | Except.error _ => Except.ok false

/-- Run a whole suspension pass: each call in order through
`edit_schema`, recording for each whether the schema editor accepted
it. -/
def runCalls (runner : SchemaCall → Except String Unit) :
    List SchemaCall → Except String (List (SchemaCall × Bool))
  | [] => Except.ok []
  | c :: rest => do
    let b ← edit_schema runner c
    let r ← runCalls runner rest
    Except.ok ((c, b) :: r)

/-- Whether a raw schema-editor call succeeds, as a `Bool`. -/
def callOk (runner : SchemaCall → Except String Unit)
    (c : SchemaCall) : Bool :=
  match runner c with
  | Except.ok _ => true
  | Except.error _ => false

/-- The ordered schema-editor calls of `drop_constraints` (`managers.py`
lines 46-70): drop `unique_together`, then each constrained field's
constraint, then each named constraint. -/
def dropConstraintCalls (m : MetaM) : List SchemaCall :=
  (if m.uniqueTogether ≠ [] then
    [SchemaCall.alterUniqueTogether m.uniqueTogether []] else []) ++
  (constrainedFields m).map
    (fun f => SchemaCall.alterField f { f with dbConstraint := false }) ++
  m.constraints.map SchemaCall.removeConstraint

/-- The ordered schema-editor calls of `drop_indexes` (`managers.py`
lines 72-96). -/
def dropIndexCalls (m : MetaM) : List SchemaCall :=
  (if m.indexTogether ≠ [] then
    [SchemaCall.alterIndexTogether m.indexTogether []] else []) ++
  (indexedFields m).map
    (fun f => SchemaCall.alterField f { f with dbIndex := false }) ++
  m.indexes.map SchemaCall.removeIndex

/-- The ordered schema-editor calls of `restore_constraints`
(`managers.py` lines 98-122). -/
def restoreConstraintCalls (m : MetaM) : List SchemaCall :=
  (if m.uniqueTogether ≠ [] then
    [SchemaCall.alterUniqueTogether [] m.uniqueTogether] else []) ++
  (constrainedFields m).map
    (fun f => SchemaCall.alterField { f with dbConstraint := false } f) ++
  m.constraints.map SchemaCall.addConstraint

/-- The ordered schema-editor calls of `restore_indexes` (`managers.py`
lines 124-148). -/
def restoreIndexCalls (m : MetaM) : List SchemaCall :=
  (if m.indexTogether ≠ [] then
    [SchemaCall.alterIndexTogether [] m.indexTogether] else []) ++
  (indexedFields m).map
    (fun f => SchemaCall.alterField { f with dbIndex := false } f) ++
  m.indexes.map SchemaCall.addIndex

/-- `ConstraintQuerySet.drop_constraints` as a whole pass. -/
def drop_constraints (runner : SchemaCall → Except String Unit)
    (m : MetaM) : Except String (List (SchemaCall × Bool)) :=
  runCalls runner (dropConstraintCalls m)

/-- `ConstraintQuerySet.drop_indexes` as a whole pass. -/
def drop_indexes (runner : SchemaCall → Except String Unit)
    (m : MetaM) : Except String (List (SchemaCall × Bool)) :=
  runCalls runner (dropIndexCalls m)

/-- `ConstraintQuerySet.restore_constraints` as a whole pass. -/
def restore_constraints (runner : SchemaCall → Except String Unit)
    (m : MetaM) : Except String (List (SchemaCall × Bool)) :=
  runCalls runner (restoreConstraintCalls m)

/-- `ConstraintQuerySet.restore_indexes` as a whole pass. -/
def restore_indexes (runner : SchemaCall → Except String Unit)
    (m : MetaM) : Except String (List (SchemaCall × Bool)) :=
  runCalls runner (restoreIndexCalls m)

end Managers

namespace CopyFrom

/-- The value stored under the `target` key of `on_conflict` as consumed
by `CopyMapping.insert_suffix` (`copy_from.py`): either a string or a
list of column names. -/
inductive TargetVal
  | str (s : String)
  | list (l : List String)
deriving DecidableEq, Repr

/-- The `on_conflict` dictionary restricted to the keys
`CopyMapping.insert_suffix` reads.  `none` models an absent key. -/
structure OnConflictD where
  action : Option String
  target : Option TargetVal
  columns : Option (List String)
deriving DecidableEq, Repr

/-- Python truthiness of the `on_conflict` dict: it has some key. -/
def OnConflictD.truthy (o : OnConflictD) : Bool :=
  o.action.isSome || o.target.isSome || o.columns.isSome

/-- A declared `model._meta.constraints` entry: its name and its
participating field names. -/
structure ConstraintD where
  name : String
  fields : List String
deriving DecidableEq, Repr

/-- The dict lookup `{c.name: c for c in constraints}.get(target)`:
the last constraint with the given name wins. -/
def constraintByName (cs : List ConstraintD) (n : String) :
    Option ConstraintD :=
  cs.reverse.find? fun c => c.name = n

/-- `CopyMapping.insert_suffix` (`copy_from.py` lines 327-376): build the
trailing conflict clause of the merge insert, or raise a `ValueError`
for an ill-formed `on_conflict` request.  `getColumn` models
`model._meta.get_field(col).column`. -/
def insert_suffix (constraints : List ConstraintD)
    (getColumn : String → String) (oc : OnConflictD) :
    Except String String :=
  if oc.truthy then
    match oc.action with
    | none =>
      Except.error "Must specify an \x60action\x60 when passing \x60on_conflict\x60."
    | some a =>
      if a = "ignore" then
        Except.ok "\n                ON CONFLICT  DO NOTHING;\n            "
      else if a = "update" then
        match oc.target with
        | none =>
          Except.error "Must specify \x60target\x60 when action == \x27update\x27."
        | some tv =>
          match oc.columns with
          | none =>
            Except.error "Must specify \x60columns\x60 when action == \x27update\x27."
          | some cols =>
            let tlist :=
              match tv with
              | TargetVal.str s =>
                match constraintByName constraints s with
                | some c => c.fields
                | none => [s]
              | TargetVal.list l => l
            let target := "(" ++ String.intercalate ", " tlist ++ ")"
            let action := "DO UPDATE SET " ++ String.intercalate ", "
              (cols.map fun c => getColumn c ++ " = excluded." ++ getColumn c)
            Except.ok ("\n                ON CONFLICT " ++ target ++ " " ++
              action ++ ";\n            ")
      else
        Except.error "Action must be one of \x27ignore\x27 or \x27update\x27."
  else
    Except.ok ";"

/-- An `on_conflict` request that `insert_suffix` rejects with a
`ValueError`: a truthy dict whose action is missing or unrecognized, or
an update action missing its target or its columns. -/
def badConflictConfig (oc : OnConflictD) : Bool :=
  oc.truthy &&
    match oc.action with
    | none => true
    | some a =>
      if a = "ignore" then false
      else if a = "update" then oc.target.isNone || oc.columns.isNone
      else true

/-- A model field as consumed by `CopyMapping.prep_insert`
(`copy_from.py`): its name, its native database type, and its optional
`copy_template` attribute. -/
structure CFField where
  name : String
  dbType : String
  copy_template : Option String
deriving DecidableEq, Repr

/-- The serial-type rewriting of `CopyMapping.prep_insert`
(`copy_from.py` lines 420-423): both `serial` and `bigserial` columns
are cast via `integer`. -/
def castType (dbType : String) : String :=
  if dbType = "serial" then "integer"
  else if dbType = "bigserial" then "integer"
  else dbType

/-- The per-column SELECT expression of `CopyMapping.prep_insert`
(`copy_from.py` lines 415-439): a cast of the quoted header to the
field's (serial-rewritten) type, overridden by the field's
`copy_template` if it has one, overridden in turn by a
`copy_<field>_template` method on the model if one exists.
`modelTemplate` models the method probe, keyed by field name. -/
def cfTempField (modelTemplate : String → Option String)
    (f : CFField) (header : String) : String :=
  let s := "cast(\"" ++ header ++ "\" as " ++ castType f.dbType ++ ")"
  let s :=
    match f.copy_template with
    | some t => subst t header
    | none => s
  match modelTemplate f.name with
  | some t => subst t header
  | none => s

/-- The first loop of `CopyMapping.validate_mapping` (`copy_from.py`
lines 197-200): every header named as a mapping value must appear in
the discovered header list. -/
def checkMapHeaders (headers : List String) :
    List (String × String) → Except String Unit
  | [] => Except.ok ()
  | p :: rest =>
    if p.2 ∈ headers then checkMapHeaders headers rest
    else Except.error ("Header \x27" ++ p.2 ++ "\x27 not found in CSV file")

/-- The second loop of `CopyMapping.validate_mapping` (`copy_from.py`
lines 202-205): every mapping key must name a model field. -/
def checkMapFields (fieldNames : List String) :
    List (String × String) → Except String Unit
  | [] => Except.ok ()
  | p :: rest =>
    if p.1 ∈ fieldNames then checkMapFields fieldNames rest
    else Except.error ("Model does not include " ++ p.1 ++ " field")

/-- The third loop of `CopyMapping.validate_mapping` (`copy_from.py`
lines 207-210): every static-mapping key must name a model field. -/
def checkStatics (fieldNames : List String) :
    List String → Except String Unit
  | [] => Except.ok ()
  | s :: rest =>
    if s ∈ fieldNames then checkStatics fieldNames rest
    else Except.error ("Model does not include " ++ s ++ " field")

/-- `CopyMapping.validate_mapping` (`copy_from.py` lines 191-210): the
three membership checks in source order.  Nothing here inspects
discovered headers that are absent from the mapping; there is no
ignore-non-mapped-headers option in this resolver. -/
def validate_mapping (mapping : List (String × String))
    (headers : List String) (fieldNames : List String)
    (staticKeys : List String) : Except String Unit := do
  checkMapHeaders headers mapping
  checkMapFields fieldNames mapping
  checkStatics fieldNames staticKeys

/-- The staging-table column definitions of `CopyMapping.prep_create`
(`copy_from.py` lines 216-239): one `text` column per discovered
header, mapped or not. -/
def cfCreateColumns (headers : List String) : List String :=
  headers.map fun hd => "\"" ++ hd ++ "\" text"

/-- The SELECT expression list of `CopyMapping.prep_insert`
(`copy_from.py` lines 415-439): one expression per mapping entry — the
loop runs over `self.mapping.items()` alone, so discovered headers
outside the mapping contribute nothing.  `gf` models
`self.get_field`. -/
def cfSelectExprs (mt : String → Option String) (gf : String → CFField)
    (mapping : List (String × String)) : List String :=
  mapping.map fun p => cfTempField mt (gf p.1) p.2

/-- A statement executed on the database cursor by `CopyMapping.save`. -/
inductive DbStmt
  | dropT
  | createT
  | copyT
  | insertT
deriving DecidableEq, Repr

/-- `CopyMapping.save` (`copy_from.py` lines 107-139) as the ordered
trace of statements it executes and the error, if any, it raises.
`create` first runs the drop and then the create statement; `copy` runs
the copy-in; `insert` builds the insert statement — invoking
`insert_suffix`, whose `ValueError` aborts the run there — and only
then executes it; finally `drop` runs the teardown drop. -/
def saveRun (constraints : List ConstraintD) (getColumn : String → String)
    (oc : OnConflictD) : List DbStmt × Option String :=
  match insert_suffix constraints getColumn oc with
  | Except.error e =>
    ([DbStmt.dropT, DbStmt.createT, DbStmt.copyT], some e)
  | Except.ok _ =>
    ([DbStmt.dropT, DbStmt.createT, DbStmt.copyT, DbStmt.insertT,
      DbStmt.dropT], none)

/-- How `CopyMapping.__init__` received its source (`copy_from.py` lines
45-53): a filesystem path, which the pipeline opens itself, or a
caller-provided readable object. -/
inductive CsvSource
  | path (p : String)
  | fileObj (id : Nat)
deriving DecidableEq, Repr

/-- The state of the source stream held in `self.csv_file`. -/
structure LoadFile where
  ownedByPipeline : Bool
  closed : Bool
deriving DecidableEq, Repr

/-- The source-stream state right after `CopyMapping.__init__`: a path
is opened by the pipeline, a readable object is adopted as is. -/
def initFile : CsvSource → LoadFile
  | CsvSource.path _ => { ownedByPipeline := true, closed := false }
  | CsvSource.fileObj _ => { ownedByPipeline := false, closed := false }

/-- The effect of `CopyMapping.copy` (`copy_from.py` lines 296-318) on
the source stream: after `copy_expert` streams the file, the statement
`self.csv_file.close()` runs unconditionally. -/
def copyStep (f : LoadFile) : LoadFile :=
  { f with closed := true }

end CopyFrom

namespace InitMapping

/-- A raw value appearing in a field-value mapping
(`postgres_copy/__init__.py`): a Python string or a number. -/
inductive SqlVal
  | s (v : String)
  | i (v : Int)
deriving DecidableEq, Repr

/-- `CopyMapping.sql_value` (`__init__.py` lines 134-137): strings are
single-quoted, other values pass through. -/
def sql_value : SqlVal → String
  | SqlVal.s v => "\x27" ++ v ++ "\x27"
  | SqlVal.i v => toString v

/-- `CopyMapping.get_value_mapping_sql` (`__init__.py` lines 139-146):
the `CASE WHEN "<header>" = <src> THEN <dst> … END` chain, one `WHEN`
per mapping entry, joined with newlines. -/
def get_value_mapping_sql (header : String)
    (m : List (SqlVal × SqlVal)) : String :=
  "\nCASE " ++
    String.intercalate "\n"
      (m.map fun p =>
        "WHEN \"" ++ header ++ "\" = " ++ sql_value p.1 ++
          " THEN " ++ sql_value p.2) ++
    " END"

/-- A model field as consumed by the older `CopyMapping`
(`__init__.py`): its name, its database column, its native database
type, and its optional `copy_template` attribute. -/
structure InitField where
  name : String
  dbColumn : String
  dbType : String
  copy_template : Option String
deriving DecidableEq, Repr

/-- The per-column SELECT expression of the older `CopyMapping.prep_insert`
(`__init__.py` lines 257-272): the field-value mapping's CASE chain if
one is present (a truthy dict), else the model's
`copy_<field>_template` method, else the field's `copy_template`, else
the plain quoted header.  `fvm` models `self.field_value_mapping`
(`[]` = no entry) and `modelTemplate` models the method probe. -/
def initTempField (fvm : String → List (SqlVal × SqlVal))
    (modelTemplate : String → Option String)
    (f : InitField) (header : String) : String :=
  if fvm f.name ≠ [] then
    get_value_mapping_sql header (fvm f.name)
  else
    match modelTemplate f.name with
    | some t => subst t header
    | none =>
      match f.copy_template with
      | some t => subst t header
      | none => "\"" ++ header ++ "\""

/-- Modelled from the spec: the per-column expression as claim C2 states
it, whose fourth (default) case is a plain cast of the quoted header
column to the field's native type.  Written from the spec's words, to
be compared with `initTempField`, which is written from the source. -/
def claimedTempFieldC2 (fvm : String → List (SqlVal × SqlVal))
    (modelTemplate : String → Option String)
    (f : InitField) (header : String) : String :=
  if fvm f.name ≠ [] then
    get_value_mapping_sql header (fvm f.name)
  else
    match modelTemplate f.name with
    | some t => subst t header
    | none =>
      match f.copy_template with
      | some t => subst t header
      | none => "CAST(\"" ++ header ++ "\" AS " ++ f.dbType ++ ")"

/-- Modelled from the spec: claim C2 as amended — identical priority
order, with the default case the plain quoted header column and no
cast. -/
def amendedTempFieldC2 (fvm : String → List (SqlVal × SqlVal))
    (modelTemplate : String → Option String)
    (f : InitField) (header : String) : String :=
  if fvm f.name ≠ [] then
    get_value_mapping_sql header (fvm f.name)
  else
    match modelTemplate f.name with
    | some t => subst t header
    | none =>
      match f.copy_template with
      | some t => subst t header
      | none => "\"" ++ header ++ "\""

/-- The dict comprehension `{v: k for k, v in self.mapping.items()}`
looked up at a header: the last mapping pair whose value is the header
wins. -/
def inverseLookup (mapping : List (String × String)) (h : String) :
    Option String :=
  (mapping.reverse.find? fun p => p.2 = h).map Prod.fst

/-- The list comprehension `[f for f in self.model._meta.fields if
f.name == f_name][0]`, as an `Option`. -/
def findField (fields : List InitField) (n : String) :
    Option InitField :=
  fields.find? fun f => f.name = n

/-- The header/field crosswalk loop of the older `CopyMapping.__init__`
(`__init__.py` lines 59-76), run over the discovered headers in order.
An unmapped header raises `ValueError` unless
`ignore_non_mapped_headers` is set, in which case the crosswalk records
it with no field; a mapped header whose field is missing from the model
raises `ValueError`.  The whole loop runs during construction, before
any SQL statement is built or executed. -/
def buildCrosswalk (fields : List InitField)
    (mapping : List (String × String)) (ignore : Bool) :
    List String → Except String (List (Option InitField × String))
  | [] => Except.ok []
  | h :: rest =>
    match inverseLookup mapping h with
    | none =>
      if ignore then
        (buildCrosswalk fields mapping ignore rest).map
          (fun cw => (none, h) :: cw)
      else
        Except.error ("Map does not include " ++ h ++ " field")
    | some fname =>
      match findField fields fname with
      | none =>
        Except.error ("Model does not include " ++ fname ++ " field")
      | some f =>
        (buildCrosswalk fields mapping ignore rest).map
          (fun cw => (some f, h) :: cw)

/-- The SELECT expressions that the older `CopyMapping.prep_insert`
(`__init__.py` lines 257-272) emits for a crosswalk: entries with no
field (`if not field: continue`) are skipped. -/
def initTempFieldsOf (fvm : String → List (SqlVal × SqlVal))
    (modelTemplate : String → Option String)
    (cw : List (Option InitField × String)) : List String :=
  cw.filterMap fun p => p.1.map fun f => initTempField fvm modelTemplate f p.2

/-- The inserted-column list that the older `CopyMapping.prep_insert`
(`__init__.py` lines 245-249) emits for a crosswalk: entries with no
field are skipped. -/
def initModelFieldsOf (cw : List (Option InitField × String)) :
    List String :=
  cw.filterMap fun p => p.1.map fun f => "\"" ++ f.dbColumn ++ "\""

end InitMapping

namespace Compat

/-- State of a byte-level UTF-8 decoder: how many continuation bytes are
still expected, the accumulated code point so far, and the byte length
of the character being decoded. -/
structure DecSt where
  rem : Nat
  acc : Nat
  len : Nat
deriving DecidableEq, Repr

/-- The decoder's ground state: between characters. -/
def st0 : DecSt := ⟨0, 0, 0⟩

/-- Validity of a completed code point for its encoded length, per
strict (Python `bytes.decode`) UTF-8: three-byte characters must not be
overlong or surrogates, four-byte characters must lie in the
supplementary planes. -/
def validCp (len cp : Nat) : Bool :=
  if len = 3 then decide (0x800 ≤ cp) && !(decide (0xD800 ≤ cp) && decide (cp ≤ 0xDFFF))
  else if len = 4 then decide (0x10000 ≤ cp) && decide (cp ≤ 0x10FFFF)
  else true

/-- Feed one byte to the UTF-8 decoder: `none` is a decoding error,
otherwise the new state and the code point completed by this byte, if
any. -/
def utf8Step (st : DecSt) (b : Nat) : Option (DecSt × Option Nat) :=
  if st.rem = 0 then
    if b < 0x80 then some (st0, some b)
    else if 0xC2 ≤ b ∧ b ≤ 0xDF then some (⟨1, b - 0xC0, 2⟩, none)
    else if 0xE0 ≤ b ∧ b ≤ 0xEF then some (⟨2, b - 0xE0, 3⟩, none)
    else if 0xF0 ≤ b ∧ b ≤ 0xF4 then some (⟨3, b - 0xF0, 4⟩, none)
    else none
  else
    if 0x80 ≤ b ∧ b ≤ 0xBF then
      if st.rem = 1 then
        if validCp st.len (st.acc * 64 + (b - 0x80)) then
          some (st0, some (st.acc * 64 + (b - 0x80)))
        else none
      else some (⟨st.rem - 1, st.acc * 64 + (b - 0x80), st.len⟩, none)
    else none

/-- Feed a byte list to the decoder from a given state, collecting the
decoded code points. -/
def utf8Run (st : DecSt) : List Nat → Option (DecSt × List Nat)
  | [] => some (st, [])
  | b :: rest =>
    match utf8Step st b with
    | none => none
    | some (st2, out) =>
      match utf8Run st2 rest with
      | none => none
      | some (st3, outs) => some (st3, out.toList ++ outs)

/-- Python's strict `bytes.decode("utf-8")` on a whole byte string: the
decode fails if any byte is invalid or if the input ends inside a
multi-byte character. -/
def utf8Decode (bs : List Nat) : Option (List Nat) :=
  match utf8Run st0 bs with
  | some (st, out) => if st.rem = 0 then some out else none
  | none => none

/-- The chunk sequence actually consumed by the psycopg3 read loop
(`psycopg_compat.py` lines 74-89): `copy.read()` results in order,
stopping at the first falsy (empty) chunk. -/
def recvChunks (chunks : List (List Nat)) : List (List Nat) :=
  chunks.takeWhile fun c => c ≠ []

/-- The psycopg3 `copy_to` transfer with a text destination
(`psycopg_compat.py` lines 51-89): each chunk is decoded independently
with `data.decode("utf-8")` and the decoded pieces are written in
order; a chunk that fails to decode raises, aborting the transfer.  The
result is the full text written to the destination. -/
def copyToText (chunks : List (List Nat)) : Option (List Nat) :=
  ((recvChunks chunks).mapM utf8Decode).map List.flatten

/-- Modelled from the spec: the copy-out text decoding as claim C5
states it — a stateful incremental decoder fed chunk by chunk, with
residual state flushed (checked empty) only at end-of-stream, so that
multi-byte characters split across chunk boundaries decode normally.
This is what the code would compute if it decoded incrementally; it is
written from the spec's words, to be compared with `copyToText`. -/
def claimedCopyToText (chunks : List (List Nat)) : Option (List Nat) :=
  utf8Decode (recvChunks chunks).flatten

end Compat

namespace CopyTo

/-- `pytz.utc.localize(today)` as an absolute timestamp, with `today`
a naive timestamp in seconds. -/
def localizeUTC (today : Int) : Int := today

/-- `pytz.timezone(tz).localize(today)` as an absolute timestamp: a
naive timestamp in a zone of UTC offset `off` seconds denotes an
absolute instant `off` earlier. -/
def localizeTz (off today : Int) : Int := today - off

/-- `SQLCopyToCompiler.tz_diff` (`copy_to.py` lines 20-26): default the
timezone name to `Asia/Jakarta`, localize today's naive timestamp in
UTC and in that zone, and return the difference in seconds.  `tzOffset`
models the timezone database (UTC offset in seconds by zone name). -/
def tz_diff (tzOffset : String → Int) (timezone : Option String)
    (today : Int) : Int :=
  let tzName :=
    match timezone with
    | none => "Asia/Jakarta"
    | some s => s
  localizeUTC today - localizeTz (tzOffset tzName) today

/-- The per-field SELECT expression of `SQLCopyToCompiler.setup_query`
(`copy_to.py` lines 46-64): for a field listed in
`copy_to_datetime_fields` the compiled column is wrapped in the
spreadsheet serial-day expression using `tz_diff`; any other field
keeps its compiled column. -/
def selectExprFor (compiledCol : String) (isDatetimeField : Bool)
    (tzOffset : String → Int) (timezone : Option String)
    (today : Int) : String :=
  if isDatetimeField then
    "((EXTRACT(EPOCH FROM " ++ compiledCol ++ ")+" ++
      toString (tz_diff tzOffset timezone today) ++ ")/86400+25569)"
  else compiledCol

end CopyTo

/-! ## Theorems -/

/-- Forcing `drop_constraints` to `False` leaves nothing for the
`on_conflict` override of `from_csv` to turn back on. -/
theorem conflictOverride_false (oc : Option Managers.OCArg)
    (cs : List String) :
    Managers.conflictOverride false oc cs = false := by
  cases oc with
  | none => rfl
  | some o =>
    simp only [Managers.conflictOverride]
    split <;> simp

/-- Claim C1: a `from_csv` call with `drop_constraints=True` or
`drop_indexes=True` inside an atomic transaction block raises the
transaction-management error before any load work (the returned trace
is empty); with both flags `False` the transaction check is skipped and
the load proceeds even inside the transaction, whatever the
`on_conflict` argument and constraint set. -/
theorem claim_C1 (oc : Option Managers.OCArg) (cs : List String)
    (dc di : Bool) :
    Managers.from_csv true dc di oc cs =
      (if dc || di then Except.error ()
       else Except.ok [Managers.Ev.save]) := by
  cases dc with
  | true => simp [Managers.from_csv]
  | false =>
    cases di with
    | true => simp [Managers.from_csv]
    | false => simp [Managers.from_csv, conflictOverride_false]

/-- Claim C9, counterexample: with
`on_conflict={'action': 'ignore', 'target': 'x'}` where `"x"` names no
declared constraint, `from_csv` still performs constraint suspension
(`Ev.dropC` and `Ev.restoreC` appear in the trace), because a truthy
`target` short-circuits the `action == 'ignore'` branch; the claim
asserts suspension would be overridden to off whenever the action is
`'ignore'`. -/
theorem claim_C9_counterexample :
    Managers.from_csv false true true
        (some ⟨some "ignore", some "x"⟩) [] =
      Except.ok [Managers.Ev.dropC, Managers.Ev.dropI, Managers.Ev.save,
        Managers.Ev.restoreC, Managers.Ev.restoreI] := by
  rfl

/-- Claim C9 as amended: constraint suspension is silently overridden
to off exactly when `on_conflict` names a truthy `target` equal to a
declared constraint name, or names no truthy `target` and has action
`'ignore'`; index suspension still follows `drop_indexes`. -/
theorem claim_C9_amended (dc di : Bool) (act : Option String)
    (tgt : String) (cs : List String) :
    (tgt ∈ cs → tgt ≠ "" →
      Managers.from_csv false dc di (some ⟨act, some tgt⟩) cs =
        Except.ok ((if di then [Managers.Ev.dropI] else []) ++
          Managers.Ev.save ::
            (if di then [Managers.Ev.restoreI] else []))) ∧
    (Managers.from_csv false dc di (some ⟨some "ignore", none⟩) cs =
      Except.ok ((if di then [Managers.Ev.dropI] else []) ++
        Managers.Ev.save ::
          (if di then [Managers.Ev.restoreI] else []))) := by
  constructor
  · intro hmem hne
    simp [Managers.from_csv, Managers.conflictOverride,
      Managers.truthyStr, hne, hmem]
  · simp [Managers.from_csv, Managers.conflictOverride,
      Managers.truthyStr]

/-- Claim C9 amended, witness: a constraint-named target with
`drop_indexes=True` yields only the index events around the save. -/
theorem claim_C9_amended_witness :
    Managers.from_csv false true true (some ⟨none, some "uniq"⟩)
        ["uniq"] =
      Except.ok [Managers.Ev.dropI, Managers.Ev.save,
        Managers.Ev.restoreI] := by
  simpa using
    (claim_C9_amended true true none "uniq" ["uniq"]).1
      (by decide) (by decide)

/-- Every suspension-pass call goes through `edit_schema`, which never
lets an exception escape: the pass reports the full call list. -/
theorem runCalls_ok (runner : Managers.SchemaCall → Except String Unit)
    (cs : List Managers.SchemaCall) :
    Managers.runCalls runner cs =
      Except.ok (cs.map fun c => (c, Managers.callOk runner c)) := by
  induction cs with
  | nil => rfl
  | cons c rest ih =>
    have hc : Managers.edit_schema runner c =
        Except.ok (Managers.callOk runner c) := by
      unfold Managers.edit_schema Managers.callOk
      cases runner c <;> rfl
    simp only [Managers.runCalls, hc, ih]
    rfl

/-- Claim C8: whatever the schema editor accepts or rejects (`runner`
may fail on any subset of calls), each of `drop_constraints`,
`drop_indexes`, `restore_constraints` and `restore_indexes` attempts
every one of its drop/restore actions — rejected ones are merely
recorded as skipped — and never propagates an exception: each pass
returns `Except.ok` with its complete, ordered action list. -/
theorem claim_C8 (runner : Managers.SchemaCall → Except String Unit)
    (m : Managers.MetaM) :
    Managers.drop_constraints runner m =
      Except.ok ((Managers.dropConstraintCalls m).map
        fun c => (c, Managers.callOk runner c)) ∧
    Managers.drop_indexes runner m =
      Except.ok ((Managers.dropIndexCalls m).map
        fun c => (c, Managers.callOk runner c)) ∧
    Managers.restore_constraints runner m =
      Except.ok ((Managers.restoreConstraintCalls m).map
        fun c => (c, Managers.callOk runner c)) ∧
    Managers.restore_indexes runner m =
      Except.ok ((Managers.restoreIndexCalls m).map
        fun c => (c, Managers.callOk runner c)) :=
  ⟨runCalls_ok runner _, runCalls_ok runner _, runCalls_ok runner _,
    runCalls_ok runner _⟩

/-- Claim C2, counterexample: for a mapped column with no field-value
mapping and no templates, the merge-insert builder of
`postgres_copy/__init__.py` emits the plain quoted header, not the cast
that the claim's fourth priority case prescribes (here a `text` column
would be `CAST("NAME" AS text)`). -/
theorem claim_C2_counterexample :
    InitMapping.initTempField (fun _ => []) (fun _ => none)
        ⟨"name", "name", "text", none⟩ "NAME" = "\"NAME\"" ∧
    InitMapping.initTempField (fun _ => []) (fun _ => none)
        ⟨"name", "name", "text", none⟩ "NAME" ≠
      InitMapping.claimedTempFieldC2 (fun _ => []) (fun _ => none)
        ⟨"name", "name", "text", none⟩ "NAME" :=
  ⟨rfl, by decide⟩

/-- Claim C2 as amended: the per-column SELECT expression follows the
claimed priority order — (1) the field-value mapping's `CASE WHEN
"<header>" = <src> THEN <dst> … END` chain with values quoted when
textual, (2) else the model's `copy_<field>_template` method with the
header substituted, (3) else the field's `copy_template` with the
header substituted — but the default case (4) is the plain quoted
header column with no cast (the staging column already carries the
field's native type). -/
theorem claim_C2_amended (fvm : String → List (InitMapping.SqlVal × InitMapping.SqlVal))
    (mt : String → Option String) (f : InitMapping.InitField)
    (header : String) :
    InitMapping.initTempField fvm mt f header =
      InitMapping.amendedTempFieldC2 fvm mt f header :=
  rfl

/-- Claim C6, counterexample: a caller-provided readable object is also
closed by the copy phase — `CopyMapping.copy` runs
`self.csv_file.close()` unconditionally — so "closed if and only if
opened by the pipeline" fails on a caller-provided source. -/
theorem claim_C6_counterexample :
    ¬ ((CopyFrom.copyStep (CopyFrom.initFile (CopyFrom.CsvSource.fileObj 0))).closed =
       (CopyFrom.initFile (CopyFrom.CsvSource.fileObj 0)).ownedByPipeline) := by
  decide

/-- Claim C6 as amended: after the copy-in phase completes, the source
stream is closed unconditionally — whether the pipeline opened it from
a path or the caller provided the readable object. -/
theorem claim_C6_amended (s : CopyFrom.CsvSource) :
    (CopyFrom.copyStep (CopyFrom.initFile s)).closed = true := by
  cases s <;> rfl

/-- Claim C7, counterexample: a `bigserial` column is cast as
`integer`, not as its underlying integer type `bigint`, by
`CopyMapping.prep_insert`. -/
theorem claim_C7_counterexample :
    CopyFrom.cfTempField (fun _ => none) ⟨"id", "bigserial", none⟩
        "NUMBER" = "cast(\"NUMBER\" as integer)" ∧
    CopyFrom.cfTempField (fun _ => none) ⟨"id", "bigserial", none⟩
        "NUMBER" ≠ "cast(\"NUMBER\" as bigint)" :=
  ⟨rfl, by decide⟩

/-- Claim C7 as amended: for a mapped column without template
overrides, both auto-incrementing serial types are cast via `integer`:
a `serial` column and a `bigserial` column alike produce
`cast("<header>" as integer)`. -/
theorem claim_C7_amended (mt : String → Option String)
    (f : CopyFrom.CFField) (header : String)
    (hmt : mt f.name = none) (hct : f.copy_template = none) :
    (f.dbType = "serial" →
      CopyFrom.cfTempField mt f header =
        "cast(\"" ++ header ++ "\" as integer)") ∧
    (f.dbType = "bigserial" →
      CopyFrom.cfTempField mt f header =
        "cast(\"" ++ header ++ "\" as integer)") := by
  have h2 : ∀ s : String,
      s ++ "\" as " ++ "integer" ++ ")" = s ++ "\" as integer)" := by
    intro s
    rw [String.append_assoc, String.append_assoc]
    rfl
  constructor <;> intro hty <;>
    simp only [CopyFrom.cfTempField, CopyFrom.castType, hmt, hct, hty] <;>
    simp only [String.reduceEq, if_false, if_pos rfl, reduceIte] <;>
    exact h2 ("cast(\"" ++ header)

/-- Claim C7 amended, witness: the `bigserial` case at a concrete
field and header. -/
theorem claim_C7_amended_witness :
    CopyFrom.cfTempField (fun _ => none) ⟨"id", "bigserial", none⟩
        "NUMBER" = "cast(\"" ++ "NUMBER" ++ "\" as integer)" :=
  (claim_C7_amended (fun _ => none) ⟨"id", "bigserial", none⟩
    "NUMBER" rfl rfl).2 rfl

/-- Claim C10: a field listed in `copy_to_datetime_fields` is exported
as the spreadsheet serial-day expression
`((EXTRACT(EPOCH FROM <column>)+<offset>)/86400+25569)` — where
`<offset>` is the UTC offset in seconds of `copy_to_timezone`,
defaulting to the `Asia/Jakarta` timezone — and in particular not as
the raw compiled column, which any other field keeps. -/
theorem claim_C10 (col : String) (tzOffset : String → Int)
    (tznm : Option String) (today : Int) :
    CopyTo.selectExprFor col true tzOffset tznm today =
      "((EXTRACT(EPOCH FROM " ++ col ++ ")+" ++
        toString (tzOffset (tznm.getD "Asia/Jakarta")) ++
        ")/86400+25569)" ∧
    CopyTo.selectExprFor col true tzOffset tznm today ≠ col ∧
    CopyTo.selectExprFor col false tzOffset tznm today = col := by
  have hoff : CopyTo.tz_diff tzOffset tznm today =
      tzOffset (tznm.getD "Asia/Jakarta") := by
    cases tznm <;>
      simp [CopyTo.tz_diff, CopyTo.localizeUTC, CopyTo.localizeTz]
  have hmain : CopyTo.selectExprFor col true tzOffset tznm today =
      "((EXTRACT(EPOCH FROM " ++ col ++ ")+" ++
        toString (tzOffset (tznm.getD "Asia/Jakarta")) ++
        ")/86400+25569)" := by
    simp [CopyTo.selectExprFor, hoff]
  refine ⟨hmain, ?_, rfl⟩
  intro h
  rw [hmain] at h
  have hl := congrArg String.length h
  have e1 : ("((EXTRACT(EPOCH FROM " : String).length = 21 := rfl
  have e2 : (")+" : String).length = 2 := rfl
  have e3 : (")/86400+25569)" : String).length = 14 := rfl
  simp only [String.length_append, e1, e2, e3] at hl
  omega

/-- Claim C4, counterexample: a load with the unrecognized conflict
action `bogus` does not fail before database work — `save` executes the
drop-staging, create-staging and copy-in statements first, and the
`ValueError` is only raised while the insert statement is being built. -/
theorem claim_C4_counterexample :
    CopyFrom.saveRun [] (fun c => c) ⟨some "bogus", none, none⟩ =
      ([CopyFrom.DbStmt.dropT, CopyFrom.DbStmt.createT,
        CopyFrom.DbStmt.copyT],
       some "Action must be one of \x27ignore\x27 or \x27update\x27.") :=
  rfl

/-- Claim C4 as amended: for every load whose conflict-resolution
request names an unrecognized (or missing) action, or has action
`update` but no target or no columns, the load raises the configuration
error during the insert phase — after the drop-staging, create-staging
and copy-in statements have executed and before the merge-insert
statement executes. -/
theorem claim_C4_amended (cons : List CopyFrom.ConstraintD)
    (getCol : String → String) (oc : CopyFrom.OnConflictD)
    (h : CopyFrom.badConflictConfig oc = true) :
    (CopyFrom.saveRun cons getCol oc).1 =
      [CopyFrom.DbStmt.dropT, CopyFrom.DbStmt.createT,
        CopyFrom.DbStmt.copyT] ∧
    (CopyFrom.saveRun cons getCol oc).2.isSome = true := by
  have hins : ∃ e, CopyFrom.insert_suffix cons getCol oc =
      Except.error e := by
    obtain ⟨act, tgt, cols⟩ := oc
    simp only [CopyFrom.badConflictConfig, Bool.and_eq_true] at h
    obtain ⟨ht, h2⟩ := h
    cases act with
    | none =>
      exact ⟨"Must specify an \x60action\x60 when passing \x60on_conflict\x60.",
        by simp [CopyFrom.insert_suffix, ht]⟩
    | some a =>
      by_cases hig : a = "ignore"
      · subst hig
        simp at h2
      · by_cases hup : a = "update"
        · subst hup
          simp only [reduceIte, String.reduceEq, if_false] at h2
          cases tgt with
          | none =>
            exact ⟨"Must specify \x60target\x60 when action == \x27update\x27.",
              by simp [CopyFrom.insert_suffix, ht]⟩
          | some tv =>
            cases cols with
            | none =>
              exact ⟨"Must specify \x60columns\x60 when action == \x27update\x27.",
                by simp [CopyFrom.insert_suffix, ht]⟩
            | some cl => simp at h2
        · exact ⟨"Action must be one of \x27ignore\x27 or \x27update\x27.",
            by simp [CopyFrom.insert_suffix, ht, hig, hup]⟩
  obtain ⟨e, he⟩ := hins
  simp [CopyFrom.saveRun, he]

/-- Claim C4 amended, witness: the unrecognized action `bogus` at
concrete arguments. -/
theorem claim_C4_amended_witness :
    CopyFrom.badConflictConfig ⟨some "bogus", none, none⟩ = true ∧
    (CopyFrom.saveRun [] (fun s => s)
        ⟨some "bogus", none, none⟩).1 =
      [CopyFrom.DbStmt.dropT, CopyFrom.DbStmt.createT,
        CopyFrom.DbStmt.copyT] ∧
    (CopyFrom.saveRun [] (fun s => s)
        ⟨some "bogus", none, none⟩).2.isSome = true :=
  ⟨by decide,
    claim_C4_amended [] (fun s => s) ⟨some "bogus", none, none⟩
      (by decide)⟩

/-- Entries of the crosswalk carrying no field contribute nothing to
the SELECT expression list of the insert statement. -/
theorem tempFields_filter (fvm : String → List (InitMapping.SqlVal × InitMapping.SqlVal))
    (mt : String → Option String)
    (cw : List (Option InitMapping.InitField × String)) :
    InitMapping.initTempFieldsOf fvm mt
        (cw.filter fun p => p.1.isSome) =
      InitMapping.initTempFieldsOf fvm mt cw := by
  induction cw with
  | nil => rfl
  | cons p rest ih =>
    obtain ⟨of, h⟩ := p
    cases of <;>
      simp [InitMapping.initTempFieldsOf, List.filter, ih] <;>
      simpa [InitMapping.initTempFieldsOf] using ih

/-- Entries of the crosswalk carrying no field contribute nothing to
the inserted-column list of the insert statement. -/
theorem modelFields_filter
    (cw : List (Option InitMapping.InitField × String)) :
    InitMapping.initModelFieldsOf
        (cw.filter fun p => p.1.isSome) =
      InitMapping.initModelFieldsOf cw := by
  induction cw with
  | nil => rfl
  | cons p rest ih =>
    obtain ⟨of, h⟩ := p
    cases of <;>
      simp [InitMapping.initModelFieldsOf, List.filter, ih] <;>
      simpa [InitMapping.initModelFieldsOf] using ih

/-- With `ignore_non_mapped_headers` left at its default, a discovered
header absent from the mapping's values makes crosswalk construction
raise. -/
theorem crosswalk_error (fields : List InitMapping.InitField)
    (mapping : List (String × String)) :
    ∀ (headers : List String) (h : String), h ∈ headers →
      InitMapping.inverseLookup mapping h = none →
      ∃ e, InitMapping.buildCrosswalk fields mapping false headers =
        Except.error e := by
  intro headers
  induction headers with
  | nil => intro h hmem; cases hmem
  | cons hd rest ih =>
    intro h hmem hun
    cases hl : InitMapping.inverseLookup mapping hd with
    | none =>
      exact ⟨"Map does not include " ++ hd ++ " field",
        by simp [InitMapping.buildCrosswalk, hl]⟩
    | some fname =>
      have hne : h ≠ hd := by
        intro he
        rw [he, hl] at hun
        cases hun
      have hmem' : h ∈ rest := by
        rcases List.mem_cons.mp hmem with h1 | h2
        · exact absurd h1 hne
        · exact h2
      cases hf : InitMapping.findField fields fname with
      | none =>
        exact ⟨"Model does not include " ++ fname ++ " field",
          by simp [InitMapping.buildCrosswalk, hl, hf]⟩
      | some f =>
        obtain ⟨e, he⟩ := ih h hmem' hun
        exact ⟨e, by simp [InitMapping.buildCrosswalk, hl, hf, he,
          Except.map]⟩

/-- With `ignore_non_mapped_headers` set, an unmapped discovered header
is recorded in the crosswalk with no field attached. -/
theorem crosswalk_mem (fields : List InitMapping.InitField)
    (mapping : List (String × String)) :
    ∀ (headers : List String) (h : String)
      (cw : List (Option InitMapping.InitField × String)),
      h ∈ headers → InitMapping.inverseLookup mapping h = none →
      InitMapping.buildCrosswalk fields mapping true headers =
        Except.ok cw →
      (Option.none, h) ∈ cw := by
  intro headers
  induction headers with
  | nil => intro h cw hmem; cases hmem
  | cons hd rest ih =>
    intro h cw hmem hun hok
    cases hl : InitMapping.inverseLookup mapping hd with
    | none =>
      simp only [InitMapping.buildCrosswalk, hl, if_pos rfl] at hok
      cases hrec : InitMapping.buildCrosswalk fields mapping true rest with
      | error e => rw [hrec] at hok; cases hok
      | ok cw' =>
        rw [hrec] at hok
        have hcw : cw = (Option.none, hd) :: cw' := by
          cases hok
          rfl
        subst hcw
        by_cases he : h = hd
        · subst he
          exact List.mem_cons_self _ _
        · have hmem' : h ∈ rest := by
            rcases List.mem_cons.mp hmem with h1 | h2
            · exact absurd h1 he
            · exact h2
          exact List.mem_cons_of_mem _ (ih h cw' hmem' hun hrec)
    | some fname =>
      have hne : h ≠ hd := by
        intro he
        rw [he, hl] at hun
        cases hun
      have hmem' : h ∈ rest := by
        rcases List.mem_cons.mp hmem with h1 | h2
        · exact absurd h1 hne
        · exact h2
      simp only [InitMapping.buildCrosswalk, hl] at hok
      cases hf : InitMapping.findField fields fname with
      | none => rw [hf] at hok; cases hok
      | some f =>
        rw [hf] at hok
        cases hrec : InitMapping.buildCrosswalk fields mapping true rest with
        | error e => rw [hrec] at hok; cases hok
        | ok cw' =>
          rw [hrec] at hok
          have hcw : cw = (some f, hd) :: cw' := by
            cases hok
            rfl
          subst hcw
          exact List.mem_cons_of_mem _ (ih h cw' hmem' hun hrec)

/-- The first validation loop succeeds when every mapped header is
among the discovered ones; discovered headers outside the mapping are
never consulted. -/
theorem checkMapHeaders_ok (headers : List String) :
    ∀ mapping : List (String × String),
      (∀ p ∈ mapping, p.2 ∈ headers) →
      CopyFrom.checkMapHeaders headers mapping = Except.ok () := by
  intro mapping
  induction mapping with
  | nil => intro _; rfl
  | cons p rest ih =>
    intro hall
    simp only [CopyFrom.checkMapHeaders,
      if_pos (hall p (List.mem_cons_self p rest))]
    exact ih fun q hq => hall q (List.mem_cons_of_mem p hq)

/-- The second validation loop succeeds when every mapping key names a
model field. -/
theorem checkMapFields_ok (fieldNames : List String) :
    ∀ mapping : List (String × String),
      (∀ p ∈ mapping, p.1 ∈ fieldNames) →
      CopyFrom.checkMapFields fieldNames mapping = Except.ok () := by
  intro mapping
  induction mapping with
  | nil => intro _; rfl
  | cons p rest ih =>
    intro hall
    simp only [CopyFrom.checkMapFields,
      if_pos (hall p (List.mem_cons_self p rest))]
    exact ih fun q hq => hall q (List.mem_cons_of_mem p hq)

/-- The third validation loop succeeds when every static key names a
model field. -/
theorem checkStatics_ok (fieldNames : List String) :
    ∀ statics : List String,
      (∀ s ∈ statics, s ∈ fieldNames) →
      CopyFrom.checkStatics fieldNames statics = Except.ok () := by
  intro statics
  induction statics with
  | nil => intro _; rfl
  | cons s rest ih =>
    intro hall
    simp only [CopyFrom.checkStatics,
      if_pos (hall s (List.mem_cons_self s rest))]
    exact ih fun q hq => hall q (List.mem_cons_of_mem s hq)

/-- Claim C3, counterexample: in the `copy_from.py` resolver — the one
`from_csv` uses — the source discovers the header `NUMBER`, which is
absent from the mapping, yet under the default configuration mapping
resolution raises no error: `validate_mapping` succeeds, the `NUMBER`
column is staged into the temporary table by `prep_create`, and the
merge insert selects one expression per mapping entry only, skipping
it; there is no ignore-non-mapped-headers opt-in in this resolver.  The
claim asserts this situation is always an error by default. -/
theorem claim_C3_counterexample :
    CopyFrom.validate_mapping [("name", "NAME")] ["NAME", "NUMBER"]
        ["name", "number", "dt"] [] = Except.ok () ∧
    "\"NUMBER\" text" ∈ CopyFrom.cfCreateColumns ["NAME", "NUMBER"] ∧
    CopyFrom.cfSelectExprs (fun _ => none)
        (fun _ => ⟨"name", "text", none⟩) [("name", "NAME")] =
      ["cast(\"NAME\" as text)"] := by
  refine ⟨rfl, ?_, rfl⟩
  decide

/-- Claim C3 as amended: the strict default belongs to the older
resolver only.  In `postgres_copy/__init__.py`, a discovered header
absent from the resolved column mapping makes crosswalk resolution —
run during construction, before any SQL statement is built or executed
— raise an error, unless the caller opts into ignoring non-mapped
headers, in which case the column is carried with no field and is
skipped by the insert statement.  In the `copy_from.py` resolver wired
into `from_csv`, an unmapped discovered header is never an error and
needs no opt-in: `validate_mapping` checks only that mapped headers,
mapping keys and static keys exist, the extra column is silently staged
into the temporary table, and the merge insert builds its expressions
from the mapping alone, so the column is skipped (not inserted). -/
theorem claim_C3_amended
    (ifields : List InitMapping.InitField)
    (imapping : List (String × String)) (iheaders : List String)
    (ih : String)
    (fvm : String → List (InitMapping.SqlVal × InitMapping.SqlVal))
    (mt0 : String → Option String)
    (mapping : List (String × String)) (headers : List String)
    (fieldNames statics : List String) (h : String)
    (mt : String → Option String) (gf : String → CopyFrom.CFField)
    (h1 : ih ∈ iheaders)
    (h2 : InitMapping.inverseLookup imapping ih = none)
    (h3 : h ∈ headers) (h4 : ∀ p ∈ mapping, p.2 ≠ h)
    (h5 : ∀ p ∈ mapping, p.2 ∈ headers)
    (h6 : ∀ p ∈ mapping, p.1 ∈ fieldNames)
    (h7 : ∀ s ∈ statics, s ∈ fieldNames) :
    ((∃ e, InitMapping.buildCrosswalk ifields imapping false iheaders =
        Except.error e) ∧
      ∀ cw, InitMapping.buildCrosswalk ifields imapping true iheaders =
          Except.ok cw →
        (Option.none, ih) ∈ cw ∧
        InitMapping.initTempFieldsOf fvm mt0 cw =
          InitMapping.initTempFieldsOf fvm mt0
            (cw.filter fun p => p.1.isSome) ∧
        InitMapping.initModelFieldsOf cw =
          InitMapping.initModelFieldsOf
            (cw.filter fun p => p.1.isSome)) ∧
    (CopyFrom.validate_mapping mapping headers fieldNames statics =
        Except.ok () ∧
      ("\"" ++ h ++ "\" text") ∈ CopyFrom.cfCreateColumns headers ∧
      CopyFrom.cfSelectExprs mt gf mapping =
        (mapping.filter fun p => p.2 ≠ h).map
          (fun p => CopyFrom.cfTempField mt (gf p.1) p.2)) := by
  refine ⟨⟨crosswalk_error ifields imapping iheaders ih h1 h2,
    fun cw hok =>
      ⟨crosswalk_mem ifields imapping iheaders ih cw h1 h2 hok,
        (tempFields_filter fvm mt0 cw).symm,
        (modelFields_filter cw).symm⟩⟩, ?_, ?_, ?_⟩
  · rw [CopyFrom.validate_mapping, checkMapHeaders_ok headers mapping h5]
    rw [checkMapFields_ok fieldNames mapping h6]
    rw [checkStatics_ok fieldNames statics h7]
    rfl
  · exact List.mem_map_of_mem _ h3
  · have hfix : mapping.filter (fun p => p.2 ≠ h) = mapping :=
      List.filter_eq_self.mpr fun p hp =>
        decide_eq_true (h4 p hp)
    rw [hfix]
    rfl

/-- Claim C3 amended, witness: in the old resolver the unmapped header
`EXTRA` errors by default and is carried field-less under the ignore
flag; in the `copy_from.py` resolver the unmapped header `NUMBER`
passes validation, is staged, and yields no select expression. -/
theorem claim_C3_amended_witness :
    ((∃ e, InitMapping.buildCrosswalk
        [⟨"name", "name", "text", none⟩] [("name", "NAME")] false
        ["NAME", "EXTRA"] = Except.error e) ∧
      (Option.none, "EXTRA") ∈
        [((some ⟨"name", "name", "text", none⟩ :
            Option InitMapping.InitField), "NAME"),
          (none, "EXTRA")]) ∧
    CopyFrom.validate_mapping [("name", "NAME")] ["NAME", "NUMBER"]
        ["name", "number", "dt"] [] = Except.ok () ∧
    ("\"" ++ "NUMBER" ++ "\" text") ∈
      CopyFrom.cfCreateColumns ["NAME", "NUMBER"] := by
  have hc := claim_C3_amended [⟨"name", "name", "text", none⟩]
    [("name", "NAME")] ["NAME", "EXTRA"] "EXTRA" (fun _ => [])
    (fun _ => none) [("name", "NAME")] ["NAME", "NUMBER"]
    ["name", "number", "dt"] [] "NUMBER" (fun _ => none)
    (fun _ => ⟨"name", "text", none⟩) (by decide) (by decide)
    (by decide) (by decide) (by decide) (by decide) (by decide)
  exact ⟨⟨hc.1.1,
    (hc.1.2 [((some ⟨"name", "name", "text", none⟩ :
        Option InitMapping.InitField), "NAME"), (none, "EXTRA")]
      rfl).1⟩, hc.2.1, hc.2.2.1⟩

/-- Running the decoder over a concatenation is running it over the
two parts in sequence. -/
theorem utf8Run_append (b : List Nat) :
    ∀ (a : List Nat) (st : Compat.DecSt),
      Compat.utf8Run st (a ++ b) =
        match Compat.utf8Run st a with
        | none => none
        | some (st1, o1) =>
          match Compat.utf8Run st1 b with
          | none => none
          | some (st2, o2) => some (st2, o1 ++ o2) := by
  intro a
  induction a with
  | nil =>
    intro st
    simp only [List.nil_append, Compat.utf8Run]
    cases Compat.utf8Run st b with
    | none => rfl
    | some p => obtain ⟨st2, o2⟩ := p; simp
  | cons x xs ih =>
    intro st
    simp only [List.cons_append, Compat.utf8Run]
    cases hs : Compat.utf8Step st x with
    | none => rfl
    | some p =>
      obtain ⟨stm, o⟩ := p
      dsimp only
      rw [show xs.append b = xs ++ b from rfl, ih stm]
      cases Compat.utf8Run stm xs with
      | none => rfl
      | some q =>
        obtain ⟨st3, o3⟩ := q
        dsimp only
        cases Compat.utf8Run st3 b with
        | none => rfl
        | some r =>
          obtain ⟨st4, o4⟩ := r
          simp

/-- A decoder step that lands between characters lands in the ground
state. -/
theorem utf8Step_rem0 {st : Compat.DecSt} {b : Nat}
    {st2 : Compat.DecSt} {o : Option Nat}
    (h : Compat.utf8Step st b = some (st2, o)) (h0 : st2.rem = 0) :
    st2 = Compat.st0 := by
  unfold Compat.utf8Step at h
  split_ifs at h with h1 h2 h3 h4 h5 h6 h7 h8
  all_goals
    first
      | exact Option.noConfusion h
      | (injection h with h'
         injection h' with ha hb
         first
           | exact ha.symm
           | (rw [← ha] at h0
              simp at h0
              all_goals omega))

/-- A decoder run that ends between characters ends either where it
started or in the ground state. -/
theorem utf8Run_rem0 :
    ∀ (a : List Nat) (st st2 : Compat.DecSt) (o : List Nat),
      Compat.utf8Run st a = some (st2, o) → st2.rem = 0 →
      st2 = Compat.st0 ∨ st2 = st := by
  intro a
  induction a with
  | nil =>
    intro st st2 o h _
    simp only [Compat.utf8Run, Option.some.injEq, Prod.mk.injEq] at h
    exact Or.inr h.1.symm
  | cons x xs ih =>
    intro st st2 o h h0
    simp only [Compat.utf8Run] at h
    cases hs : Compat.utf8Step st x with
    | none => rw [hs] at h; exact Option.noConfusion h
    | some p =>
      obtain ⟨stm, o1⟩ := p
      rw [hs] at h
      dsimp only at h
      cases hr : Compat.utf8Run stm xs with
      | none => rw [hr] at h; exact Option.noConfusion h
      | some q =>
        obtain ⟨st3, o3⟩ := q
        rw [hr] at h
        dsimp only at h
        injection h with h'
        injection h' with h1 h2
        rw [← h1] at h0 ⊢
        rcases ih stm st3 o3 hr h0 with hc | hc
        · exact Or.inl hc
        · subst hc
          exact Or.inl (utf8Step_rem0 hs h0)

/-- Decoding a valid prefix composes: the rest of the bytes decode
independently. -/
theorem utf8Decode_append {a x : List Nat} (b : List Nat)
    (h : Compat.utf8Decode a = some x) :
    Compat.utf8Decode (a ++ b) =
      (Compat.utf8Decode b).map (fun y => x ++ y) := by
  unfold Compat.utf8Decode at h ⊢
  cases hr : Compat.utf8Run Compat.st0 a with
  | none => rw [hr] at h; exact Option.noConfusion h
  | some p =>
    obtain ⟨st1, o1⟩ := p
    rw [hr] at h
    dsimp only at h
    by_cases h0 : st1.rem = 0
    · rw [if_pos h0] at h
      injection h with hx
      subst hx
      have hst : st1 = Compat.st0 := by
        rcases utf8Run_rem0 a Compat.st0 st1 o1 hr h0 with hc | hc <;>
          exact hc
      subst hst
      rw [utf8Run_append b a Compat.st0, hr]
      dsimp only
      cases hb : Compat.utf8Run Compat.st0 b with
      | none => rfl
      | some q =>
        obtain ⟨st2, o2⟩ := q
        dsimp only
        by_cases hb0 : st2.rem = 0
        · simp [hb0]
        · simp [hb0]
    · rw [if_neg h0] at h
      exact Option.noConfusion h

/-- If every chunk of a list decodes on its own, the per-chunk decode
of the whole list agrees with decoding the concatenation, and both
succeed. -/
theorem decode_chunks :
    ∀ l : List (List Nat),
      (∀ c ∈ l, (Compat.utf8Decode c).isSome = true) →
      (l.mapM Compat.utf8Decode).map List.flatten =
          Compat.utf8Decode l.flatten ∧
        (Compat.utf8Decode l.flatten).isSome = true := by
  intro l
  induction l with
  | nil => intro _; exact ⟨rfl, rfl⟩
  | cons c rest ih =>
    intro hall
    have hc : (Compat.utf8Decode c).isSome = true :=
      hall c (List.mem_cons_self c rest)
    obtain ⟨x, hx⟩ := Option.isSome_iff_exists.mp hc
    obtain ⟨ih1, ih2⟩ :=
      ih fun d hd => hall d (List.mem_cons_of_mem c hd)
    obtain ⟨y, hy⟩ := Option.isSome_iff_exists.mp ih2
    have hflat : Compat.utf8Decode (c :: rest).flatten =
        some (x ++ y) := by
      rw [List.flatten_cons, utf8Decode_append rest.flatten hx, hy]
      rfl
    refine ⟨?_, by rw [hflat]; rfl⟩
    cases hm : rest.mapM Compat.utf8Decode with
    | none => rw [hm] at ih1; rw [hy] at ih1; cases ih1
    | some ds =>
      have hds : ds.flatten = y := by
        rw [hm, hy] at ih1
        injection ih1
      rw [hflat, List.mapM_cons, hx, hm]
      simp [hds]

/-- Claim C5, counterexample: the UTF-8 encoding of `é` (bytes `C3 A9`)
split across two chunks makes the psycopg3 text copy-out fail — each
chunk is decoded independently by `data.decode("utf-8")`, so the first
chunk is a truncated multi-byte character — while the incremental
decoding the claim describes succeeds on the same byte sequence. -/
theorem claim_C5_counterexample :
    Compat.copyToText [[0xC3], [0xA9]] = none ∧
    Compat.claimedCopyToText [[0xC3], [0xA9]] = some [0xE9] := by
  constructor <;> decide

/-- Claim C5 as amended: the psycopg3 text copy-out decodes each chunk
independently with a plain, stateless UTF-8 decode; no residual decoder
state is kept across chunks or flushed at end-of-stream.  When every
chunk happens to be self-contained valid UTF-8, all bytes are decoded
and written and the output agrees with decoding the full stream; but a
multi-byte character split across a chunk boundary makes the transfer
raise a decode error (see the counterexample). -/
theorem claim_C5_amended (chunks : List (List Nat))
    (h : ∀ c ∈ Compat.recvChunks chunks,
      (Compat.utf8Decode c).isSome = true) :
    ∃ out, Compat.copyToText chunks = some out ∧
      Compat.claimedCopyToText chunks = some out := by
  obtain ⟨h1, h2⟩ := decode_chunks (Compat.recvChunks chunks) h
  obtain ⟨out, hout⟩ := Option.isSome_iff_exists.mp h2
  refine ⟨out, ?_, ?_⟩
  · rw [Compat.copyToText, h1, hout]
  · rw [Compat.claimedCopyToText, hout]

/-- Claim C5 amended, witness: chunks `"h"` and `"é"`, each valid
UTF-8 on its own. -/
theorem claim_C5_amended_witness :
    ∃ out, Compat.copyToText [[104], [195, 169]] = some out ∧
      Compat.claimedCopyToText [[104], [195, 169]] = some out :=
  claim_C5_amended [[104], [195, 169]] (by decide)

end PGCopy
